import Mathlib

set_option maxRecDepth 4000

/-!
Verification of the hyrcon-client transport layer (src/transport.rs, src/util.rs).

Strings are modelled as lists of Unicode scalar values (`List Nat`), byte
buffers as lists of bytes (`List Nat`, each < 256).  Rust `i32` values are
modelled as `Int` together with explicit two's-complement reduction `wrap32`.
Socket I/O is modelled by passing the incoming data (a list of parsed packets
for the Source backend, an optional response block for the Hyrcon backend) as
an explicit argument, and by returning the list of outbound writes; a read
that would block past the supplied input is modelled as `Option.none`.
-/

namespace Hyrcon

/-- Two's-complement reduction of an integer into the `i32` range,
modelling Rust's wrapping semantics (`wrapping_add`, `as i32`). -/
def wrap32 (n : Int) : Int :=
  (n + 2 ^ 31) % 2 ^ 32 - 2 ^ 31

/-- Little-endian byte serialisation of an `i32` value (`i32::to_le_bytes`). -/
def toLeBytes (n : Int) : List Nat :=
  let u := (n % 2 ^ 32).toNat
  [u % 256, u / 256 % 256, u / 65536 % 256, u / 16777216 % 256]

/-- Little-endian deserialisation of four bytes into an `i32` value
(`i32::from_le_bytes`). -/
def fromLeBytes (a b c d : Nat) : Int :=
  let u := a % 256 + 256 * (b % 256) + 65536 * (c % 256) + 16777216 * (d % 256)
  if u < 2 ^ 31 then (u : Int) else (u : Int) - 2 ^ 32

theorem wrap32_lb (n : Int) : -2 ^ 31 ≤ wrap32 n := by
  have h := Int.emod_nonneg (n + 2 ^ 31) (by norm_num : (2 ^ 32 : Int) ≠ 0)
  unfold wrap32
  omega

theorem wrap32_ub (n : Int) : wrap32 n < 2 ^ 31 := by
  have h := Int.emod_lt_of_pos (n + 2 ^ 31) (by norm_num : (0 : Int) < 2 ^ 32)
  unfold wrap32
  omega

theorem wrap32_emod (n : Int) : wrap32 n % 2 ^ 32 = n % 2 ^ 32 := by
  unfold wrap32
  omega

theorem wrap32_eq_self {n : Int} (h1 : -2 ^ 31 ≤ n) (h2 : n < 2 ^ 31) :
    wrap32 n = n := by
  unfold wrap32
  omega

theorem wrap32_inj {m n : Int} (h : wrap32 m = wrap32 n) :
    m % 2 ^ 32 = n % 2 ^ 32 := by
  have hm := wrap32_emod m
  have hn := wrap32_emod n
  rw [h] at hm
  omega

theorem fromLeBytes_toLeBytes (n : Int) :
    fromLeBytes ((toLeBytes n).get ⟨0, by simp [toLeBytes]⟩)
      ((toLeBytes n).get ⟨1, by simp [toLeBytes]⟩)
      ((toLeBytes n).get ⟨2, by simp [toLeBytes]⟩)
      ((toLeBytes n).get ⟨3, by simp [toLeBytes]⟩) = wrap32 n := by
  have h0 : 0 ≤ n % 2 ^ 32 := Int.emod_nonneg n (by norm_num)
  have h1 : n % 2 ^ 32 < 2 ^ 32 := Int.emod_lt_of_pos n (by norm_num)
  simp only [toLeBytes, fromLeBytes, wrap32, List.get]
  set u := (n % 2 ^ 32).toNat with hu
  have hun : (u : Int) = n % 2 ^ 32 := by omega
  have hub : u < 2 ^ 32 := by omega
  have hrec : u % 256 % 256 + 256 * (u / 256 % 256 % 256) +
      65536 * (u / 65536 % 256 % 256) + 16777216 * (u / 16777216 % 256 % 256) = u := by
    omega
  split
  · omega
  · omega

end Hyrcon

namespace Hyrcon

/-- A Unicode scalar value: the set of values a Rust `char` can hold
(below U+110000 and outside the surrogate range). -/
def ScalarValue (c : Nat) : Prop :=
  c < 1114112 ∧ (c < 55296 ∨ 57344 ≤ c)

instance (c : Nat) : Decidable (ScalarValue c) := by
  unfold ScalarValue
  infer_instance

/-- UTF-8 encoding of one scalar value (as `char::encode_utf8`). -/
def utf8EncodeChar (c : Nat) : List Nat :=
  if c < 128 then [c]
  else if c < 2048 then [192 + c / 64, 128 + c % 64]
  else if c < 65536 then [224 + c / 4096, 128 + c / 64 % 64, 128 + c % 64]
  else [240 + c / 262144, 128 + c / 4096 % 64, 128 + c / 64 % 64, 128 + c % 64]

/-- UTF-8 encoding of a string of scalar values (`str::as_bytes`). -/
def utf8Encode (s : List Nat) : List Nat :=
  s.flatMap utf8EncodeChar

/-- Is `b` a UTF-8 continuation byte. -/
def isCont (b : Nat) : Bool :=
  decide (128 ≤ b) && decide (b < 192)

/-- Decode the continuation byte of a two-byte UTF-8 sequence with lead
byte `b0` (which the caller has checked lies in `0xC2..0xDF`). -/
def decodeTail2 (b0 : Nat) : List Nat → Option (Nat × List Nat)
  | b1 :: rest =>
    if isCont b1 then some ((b0 - 192) * 64 + (b1 - 128), rest) else none
  | [] => none

/-- Decode the continuation bytes of a three-byte UTF-8 sequence with lead
byte `b0` in `0xE0..0xEF`; the byte-range table matches Rust's validator
(rejecting overlong forms and surrogates). -/
def decodeTail3 (b0 : Nat) : List Nat → Option (Nat × List Nat)
  | b1 :: b2 :: rest =>
    if ((b0 = 224 ∧ 160 ≤ b1 ∧ b1 < 192) ∨
        (225 ≤ b0 ∧ b0 ≤ 236 ∧ isCont b1) ∨
        (b0 = 237 ∧ 128 ≤ b1 ∧ b1 < 160) ∨
        (238 ≤ b0 ∧ isCont b1)) ∧ isCont b2 then
      some ((b0 - 224) * 4096 + (b1 - 128) * 64 + (b2 - 128), rest)
    else none
  | _ => none

/-- Decode the continuation bytes of a four-byte UTF-8 sequence with lead
byte `b0` in `0xF0..0xF4`; the byte-range table matches Rust's validator
(rejecting overlong forms and values above U+10FFFF). -/
def decodeTail4 (b0 : Nat) : List Nat → Option (Nat × List Nat)
  | b1 :: b2 :: b3 :: rest =>
    if ((b0 = 240 ∧ 144 ≤ b1 ∧ b1 < 192) ∨
        (241 ≤ b0 ∧ b0 ≤ 243 ∧ isCont b1) ∨
        (b0 = 244 ∧ 128 ≤ b1 ∧ b1 < 144)) ∧ isCont b2 ∧ isCont b3 then
      some ((b0 - 240) * 262144 + (b1 - 128) * 4096 + (b2 - 128) * 64 +
        (b3 - 128), rest)
    else none
  | _ => none

/-- Decode one UTF-8 encoded scalar value from the front of a byte list,
returning the value and the remaining bytes, or `none` if the bytes do not
start with a valid UTF-8 sequence. -/
def utf8DecodeOne : List Nat → Option (Nat × List Nat)
  | [] => none
  | b0 :: rest =>
    if b0 < 128 then some (b0, rest)
    else if 194 ≤ b0 ∧ b0 < 224 then decodeTail2 b0 rest
    else if 224 ≤ b0 ∧ b0 < 240 then decodeTail3 b0 rest
    else if 240 ≤ b0 ∧ b0 ≤ 244 then decodeTail4 b0 rest
    else none

theorem decodeTail2_length {b0 c : Nat} {l r : List Nat}
    (h : decodeTail2 b0 l = some (c, r)) : r.length ≤ l.length := by
  match l with
  | [] => simp [decodeTail2] at h
  | b1 :: rest =>
    simp only [decodeTail2] at h
    split at h
    · cases h; simp
    · cases h

theorem decodeTail3_length {b0 c : Nat} {l r : List Nat}
    (h : decodeTail3 b0 l = some (c, r)) : r.length ≤ l.length := by
  match l with
  | [] => simp [decodeTail3] at h
  | [b1] => simp [decodeTail3] at h
  | b1 :: b2 :: rest =>
    simp only [decodeTail3] at h
    split at h
    · cases h; simp; omega
    · cases h

theorem decodeTail4_length {b0 c : Nat} {l r : List Nat}
    (h : decodeTail4 b0 l = some (c, r)) : r.length ≤ l.length := by
  match l with
  | [] => simp [decodeTail4] at h
  | [b1] => simp [decodeTail4] at h
  | [b1, b2] => simp [decodeTail4] at h
  | b1 :: b2 :: b3 :: rest =>
    simp only [decodeTail4] at h
    split at h
    · cases h; simp; omega
    · cases h

theorem utf8DecodeOne_length {c : Nat} {l r : List Nat}
    (h : utf8DecodeOne l = some (c, r)) : r.length < l.length := by
  match l with
  | [] => simp [utf8DecodeOne] at h
  | b0 :: rest =>
    simp only [utf8DecodeOne] at h
    split_ifs at h
    · cases h; simp
    · have := decodeTail2_length h; simp; omega
    · have := decodeTail3_length h; simp; omega
    · have := decodeTail4_length h; simp; omega

/-- Strict UTF-8 decoding of a byte list into scalar values, modelling the
validation of Rust `String::from_utf8`: returns `none` exactly when the
bytes are not valid UTF-8. -/
def utf8Decode (l : List Nat) : Option (List Nat) :=
  match l with
  | [] => some []
  | b0 :: bs =>
    match h : utf8DecodeOne (b0 :: bs) with
    | some (c, rest) => (utf8Decode rest).map (c :: ·)
    | none => none
termination_by l.length
decreasing_by
  exact utf8DecodeOne_length h

theorem utf8Decode_nil : utf8Decode [] = some [] := by
  rw [utf8Decode]

theorem utf8Decode_cons_some {b0 c : Nat} {bs rest : List Nat}
    (h : utf8DecodeOne (b0 :: bs) = some (c, rest)) :
    utf8Decode (b0 :: bs) = (utf8Decode rest).map (c :: ·) := by
  rw [utf8Decode, h]

theorem utf8Decode_cons_none {b0 : Nat} {bs : List Nat}
    (h : utf8DecodeOne (b0 :: bs) = none) :
    utf8Decode (b0 :: bs) = none := by
  rw [utf8Decode, h]

theorem isCont_eq_true {b : Nat} (h1 : 128 ≤ b) (h2 : b < 192) :
    isCont b = true := by
  simp only [isCont, Bool.and_eq_true, decide_eq_true_eq]
  exact ⟨h1, h2⟩

theorem utf8DecodeOne_encodeChar (c : Nat) (h : ScalarValue c) (rest : List Nat) :
    utf8DecodeOne (utf8EncodeChar c ++ rest) = some (c, rest) := by
  obtain ⟨hub, hsur⟩ := h
  by_cases h1 : c < 128
  · rw [utf8EncodeChar, if_pos h1]
    simp only [List.cons_append, List.nil_append]
    rw [utf8DecodeOne, if_pos h1]
  · by_cases h2 : c < 2048
    · rw [utf8EncodeChar, if_neg h1, if_pos h2]
      simp only [List.cons_append, List.nil_append]
      rw [utf8DecodeOne]
      rw [if_neg (by omega), if_pos (by omega : 194 ≤ 192 + c / 64 ∧ 192 + c / 64 < 224)]
      rw [decodeTail2, if_pos (isCont_eq_true (by omega) (by omega))]
      have hv : (192 + c / 64 - 192) * 64 + (128 + c % 64 - 128) = c := by omega
      rw [hv]
    · by_cases h3 : c < 65536
      · rw [utf8EncodeChar, if_neg h1, if_neg h2, if_pos h3]
        simp only [List.cons_append, List.nil_append]
        rw [utf8DecodeOne]
        rw [if_neg (by omega), if_neg (by omega),
          if_pos (by omega : 224 ≤ 224 + c / 4096 ∧ 224 + c / 4096 < 240)]
        rw [decodeTail3, if_pos ?hc]
        case hc =>
          refine ⟨?_, isCont_eq_true (by omega) (by omega)⟩
          rcases Nat.lt_or_ge c 4096 with h4 | h4
          · exact Or.inl ⟨by omega, by omega, by omega⟩
          · rcases Nat.lt_or_ge c 53248 with h5 | h5
            · exact Or.inr (Or.inl ⟨by omega, by omega,
                isCont_eq_true (by omega) (by omega)⟩)
            · rcases Nat.lt_or_ge c 57344 with h6 | h6
              · exact Or.inr (Or.inr (Or.inl ⟨by omega, by omega, by omega⟩))
              · exact Or.inr (Or.inr (Or.inr ⟨by omega,
                  isCont_eq_true (by omega) (by omega)⟩))
        have hv : (224 + c / 4096 - 224) * 4096 + (128 + c / 64 % 64 - 128) * 64 +
            (128 + c % 64 - 128) = c := by omega
        rw [hv]
      · rw [utf8EncodeChar, if_neg h1, if_neg h2, if_neg h3]
        simp only [List.cons_append, List.nil_append]
        rw [utf8DecodeOne]
        rw [if_neg (by omega), if_neg (by omega), if_neg (by omega),
          if_pos (by omega : 240 ≤ 240 + c / 262144 ∧ 240 + c / 262144 ≤ 244)]
        rw [decodeTail4, if_pos ?hc4]
        case hc4 =>
          refine ⟨?_, isCont_eq_true (by omega) (by omega),
            isCont_eq_true (by omega) (by omega)⟩
          rcases Nat.lt_or_ge c 262144 with h4 | h4
          · exact Or.inl ⟨by omega, by omega, by omega⟩
          · rcases Nat.lt_or_ge c 1048576 with h5 | h5
            · exact Or.inr (Or.inl ⟨by omega, by omega,
                isCont_eq_true (by omega) (by omega)⟩)
            · exact Or.inr (Or.inr ⟨by omega, by omega, by omega⟩)
        have hv : (240 + c / 262144 - 240) * 262144 + (128 + c / 4096 % 64 - 128) * 4096 +
            (128 + c / 64 % 64 - 128) * 64 + (128 + c % 64 - 128) = c := by omega
        rw [hv]

theorem utf8EncodeChar_ne_nil (c : Nat) : utf8EncodeChar c ≠ [] := by
  rw [utf8EncodeChar]
  split_ifs <;> simp

theorem utf8Decode_encodeChar (c : Nat) (h : ScalarValue c) (rest : List Nat) :
    utf8Decode (utf8EncodeChar c ++ rest) = (utf8Decode rest).map (c :: ·) := by
  have hone := utf8DecodeOne_encodeChar c h rest
  cases he : utf8EncodeChar c with
  | nil => exact absurd he (utf8EncodeChar_ne_nil c)
  | cons b bs =>
    rw [he, List.cons_append] at hone
    rw [List.cons_append]
    exact utf8Decode_cons_some hone

theorem utf8Decode_utf8Encode (s : List Nat) (h : ∀ c ∈ s, ScalarValue c) :
    utf8Decode (utf8Encode s) = some s := by
  induction s with
  | nil => exact utf8Decode_nil
  | cons c cs ih =>
    rw [utf8Encode, List.flatMap_cons]
    rw [show cs.flatMap utf8EncodeChar = utf8Encode cs from rfl]
    rw [utf8Decode_encodeChar c (h c (by simp)) (utf8Encode cs)]
    rw [ih (fun x hx => h x (by simp [hx]))]
    rfl

end Hyrcon

namespace Hyrcon

/-- A parsed Source RCON packet (`struct SourcePacket`, transport.rs:690):
request id, packet kind, and textual payload (a list of scalar values). -/
structure SourcePacket where
  id : Int
  kind : Int
  payload : List Nat
deriving DecidableEq

/-- Packet kind `SERVERDATA_RESPONSE_VALUE = 0`. -/
def SERVERDATA_RESPONSE_VALUE : Int := 0
/-- Packet kind `SERVERDATA_EXECCOMMAND = 2`. -/
def SERVERDATA_EXECCOMMAND : Int := 2
/-- Packet kind `SERVERDATA_AUTH_RESPONSE = 2` (numerically equal to
`SERVERDATA_EXECCOMMAND`). -/
def SERVERDATA_AUTH_RESPONSE : Int := 2
/-- Packet kind `SERVERDATA_AUTH = 3`. -/
def SERVERDATA_AUTH : Int := 3

/-- Errors arising in the Source packet codec. -/
inductive CodecError
  | nulInPayload
  | eofLength
  | badLength (n : Int)
  | eofBody
  | tooSmall
  | badTerminator
  | invalidUtf8
deriving DecidableEq

/-- Frame construction of `SourceClient::write_packet` (transport.rs:574):
reject payloads containing a NUL character, then build
`length | id | kind | payload | 0x00 | 0x00` with little-endian `i32`
fields, where `length = (4 + 4 + payload_bytes.len() + 2) as i32`. -/
def write_packet (id kind : Int) (payload : List Nat) :
    Except CodecError (List Nat) :=
  if 0 ∈ payload then .error .nulInPayload
  else
    let payload_bytes := utf8Encode payload
    let length := wrap32 (4 + 4 + payload_bytes.length + 2)
    .ok (toLeBytes length ++ toLeBytes id ++ toLeBytes kind ++
      payload_bytes ++ [0, 0])

/-- Interpretation of the body buffer (the `length` bytes after the length
prefix) in `SourceClient::read_packet` (transport.rs:657-677): extract `id`
and `kind` from the first 8 bytes, check the buffer holds at least 10 bytes
(`buffer.len() < 10`, here `bodyRest.length + 8 < 10`), check the final two
bytes are both zero, decode the payload bytes as UTF-8, and truncate the
text at the first embedded NUL. Fewer than 8 bytes cannot occur for buffers
produced by `read_packet` and are mapped to the same undersize error. -/
def parseBody : List Nat → Except CodecError SourcePacket
  | i0 :: i1 :: i2 :: i3 :: k0 :: k1 :: k2 :: k3 :: bodyRest =>
    if bodyRest.length + 8 < 10 then .error .tooSmall
    else if bodyRest.drop (bodyRest.length - 2) ≠ [0, 0] then
      .error .badTerminator
    else
      match utf8Decode (bodyRest.take (bodyRest.length - 2)) with
      | none => .error .invalidUtf8
      | some payload_raw =>
        .ok { id := fromLeBytes i0 i1 i2 i3,
              kind := fromLeBytes k0 k1 k2 k3,
              payload := payload_raw.takeWhile (· ≠ 0) }
  | _ => .error .tooSmall

/-- `SourceClient::read_packet` (transport.rs:621) as a pure function on the
incoming byte stream: read a 4-byte little-endian length, reject
`length < 10`, read exactly `length` body bytes (end of stream inside either
read is an EOF error), and parse the body. Returns the decoded packet and
the unconsumed remainder of the stream. -/
def read_packet : List Nat → Except CodecError (SourcePacket × List Nat)
  | b0 :: b1 :: b2 :: b3 :: rest =>
    let length := fromLeBytes b0 b1 b2 b3
    if length < 10 then .error (.badLength length)
    else if rest.length < length.toNat then .error .eofBody
    else
      match parseBody (rest.take length.toNat) with
      | .ok pkt => .ok (pkt, rest.drop length.toNat)
      | .error e => .error e
  | _ => .error .eofLength

end Hyrcon

namespace Hyrcon

/-- Result of issuing an AUTH command (`enum AuthOutcome`). -/
inductive AuthOutcome
  | Success
  | Failure
deriving DecidableEq

/-- High-level status of a command response (`enum ResponseStatus`). -/
inductive ResponseStatus
  | Ok
  | Err
deriving DecidableEq

/-- Aggregated payload returned by the RCON server (`struct RconResponse`):
status, payload lines, optional error message; lines and the message are
lists of scalar values. -/
structure RconResponse where
  status : ResponseStatus
  payload : List (List Nat)
  error : Option (List Nat)
deriving DecidableEq

/-- Possible outcomes when sending a protocol command
(`enum CommandOutcome`). -/
inductive CommandOutcome
  | Response (response : RconResponse)
  | Bye
deriving DecidableEq

/-- The Unicode `White_Space` property, as decided by Rust
`char::is_whitespace`. -/
def isRustWhitespace (c : Nat) : Bool :=
  decide (9 ≤ c ∧ c ≤ 13) || decide (c = 32) || decide (c = 133) ||
  decide (c = 160) || decide (c = 5760) || decide (8192 ≤ c ∧ c ≤ 8202) ||
  decide (c = 8232) || decide (c = 8233) || decide (c = 8239) ||
  decide (c = 8287) || decide (c = 12288)

/-- Trim characters satisfying `p` from both ends of a string
(Rust `str::trim_matches`). -/
def trimMatches (p : Nat → Bool) (s : List Nat) : List Nat :=
  ((s.dropWhile p).reverse.dropWhile p).reverse

/-- Rust `str::trim`: trim Unicode whitespace from both ends. -/
def rustTrim (s : List Nat) : List Nat :=
  trimMatches isRustWhitespace s

/-- Is `c` a carriage return or a line feed. -/
def isCRLF (c : Nat) : Bool :=
  decide (c = 13) || decide (c = 10)

/-- `command::sanitize` (util.rs:24): trim leading/trailing CR and LF; if
what remains is whitespace-only, yield `none`, else yield the trimmed
command. -/
def sanitize (raw : List Nat) : Option (List Nat) :=
  let trimmed := trimMatches isCRLF raw
  if (rustTrim trimmed).isEmpty then none else some trimmed

/-- Scalar values of a string literal. -/
def str (s : String) : List Nat :=
  s.data.map Char.toNat

/-- Mutable state of `struct SourceClient` relevant to the protocol logic:
the `authed` flag, the `next_request_id` counter and the `closed` flag. -/
structure SourceState where
  authed : Bool
  next_request_id : Int
  closed : Bool
deriving DecidableEq

/-- `SourceClient::next_request_id` (transport.rs:397): return the current
counter value and advance the counter by one with `i32` wraparound
(`wrapping_add`). -/
def next_request_id (st : SourceState) : Int × SourceState :=
  (st.next_request_id,
    { st with next_request_id := wrap32 (st.next_request_id + 1) })

/-- Errors surfaced by the Source backend state machine. -/
inductive SourceError
  | newlineInPassword
  | nulInPassword
  | sessionClosed
  | authRequired
  | emptyCommand
  | newlineInCommand
  | nulInCommand
  | deauthInvalidated
  | sentinelKind (kind : Int)
  | sentinelPayload
deriving DecidableEq

/-- The read loop of `SourceClient::authenticate` (transport.rs:421-453),
driven by the list of packets arriving from the server. `authed` is the
session's current `authed` flag; the result is the loop's outcome (the
`outcome` variable, initially `Failure`) together with the updated flag, or
`none` when the packet stream is exhausted before the loop breaks (a real
client would block on the socket). -/
def authLoop (auth_id : Int) (authed : Bool) :
    List SourcePacket → Option (AuthOutcome × Bool)
  | [] => none
  | packet :: rest =>
    if packet.kind = SERVERDATA_RESPONSE_VALUE then
      authLoop auth_id authed rest
    else if packet.kind = SERVERDATA_AUTH_RESPONSE then
      if packet.id = auth_id then some (.Success, true)
      else if packet.id = -1 then some (.Failure, false)
      else some (.Failure, authed)
    else
      authLoop auth_id authed rest

/-- `SourceClient::authenticate` (transport.rs:403): validate the password,
allocate a request id, send one AUTH packet, then run the read loop.
Returns the operation result (`none` when the server sends too few
packets), the post-call state, and the packets written. -/
def sourceAuthenticate (st : SourceState) (password : List Nat)
    (incoming : List SourcePacket) :
    Option (Except SourceError AuthOutcome) × SourceState ×
      List SourcePacket :=
  if password.contains 13 ∨ password.contains 10 then
    (some (.error .newlineInPassword), st, [])
  else if password.contains 0 then
    (some (.error .nulInPassword), st, [])
  else
    let (auth_id, st1) := next_request_id st
    match authLoop auth_id st1.authed incoming with
    | none => (none, st1, [⟨auth_id, SERVERDATA_AUTH, password⟩])
    | some (outcome, authed) =>
      (some (.ok outcome), { st1 with authed := authed },
        [⟨auth_id, SERVERDATA_AUTH, password⟩])

/-- Split a string into `\n`-separated segments (`cur` is the current
segment, reversed). -/
def splitLFAux : List Nat → List Nat → List (List Nat)
  | [], cur => [cur.reverse]
  | c :: rest, cur =>
    if c = 10 then cur.reverse :: splitLFAux rest []
    else splitLFAux rest (c :: cur)

/-- Rust `str::lines`: split at `\n`, where a trailing final line ending
produces no trailing empty line. (The `\r` of a `\r\n` ending is left on
its segment here; `split_lines` strips every trailing `\r` anyway, which
subsumes the `\r` handling of `str::lines`.) -/
def rustLines (s : List Nat) : List (List Nat) :=
  let segs := splitLFAux s []
  if s.getLast? = some 10 then segs.dropLast else segs

/-- Remove every trailing carriage return (`trim_end_matches('\r')`). -/
def trimEndCR (s : List Nat) : List Nat :=
  (s.reverse.dropWhile (fun c => c = 13)).reverse

/-- `split_lines` (transport.rs:798): an empty payload produces no lines;
otherwise split into lines and strip trailing `\r` from each. -/
def split_lines (payload : List Nat) : List (List Nat) :=
  if payload.isEmpty then []
  else (rustLines payload).map trimEndCR

/-- The packet-collection loop of `SourceClient::send_command`
(transport.rs:506-541); `acc` is `payload_lines`. Yields the accumulated
lines on a well-formed sentinel packet, an error on deauthentication or a
malformed sentinel, and `none` when the packet stream is exhausted before
the loop breaks. -/
def collectLoop (command_id sentinel_id : Int) (acc : List (List Nat)) :
    List SourcePacket → Option (Except SourceError (List (List Nat)))
  | [] => none
  | packet :: rest =>
    if packet.kind = SERVERDATA_AUTH_RESPONSE ∧ packet.id = -1 then
      some (.error .deauthInvalidated)
    else if packet.id = sentinel_id then
      if packet.kind ≠ SERVERDATA_RESPONSE_VALUE then
        some (.error (.sentinelKind packet.kind))
      else if ¬ packet.payload.isEmpty then
        some (.error .sentinelPayload)
      else some (.ok acc)
    else if packet.kind = SERVERDATA_RESPONSE_VALUE ∧
        packet.id = command_id then
      if ¬ packet.payload.isEmpty then
        collectLoop command_id sentinel_id
          (acc ++ split_lines packet.payload) rest
      else collectLoop command_id sentinel_id acc rest
    else collectLoop command_id sentinel_id acc rest

/-- `SourceClient::send_command` (transport.rs:458): validation, two
`EXECCOMMAND` writes (the command, then the empty-payload sentinel), then
the collection loop. Returns the result (`none` when the packet stream is
exhausted), the post-call state and the written packets. -/
def sourceSendCommand (st : SourceState) (command : List Nat)
    (incoming : List SourcePacket) :
    Option (Except SourceError CommandOutcome) × SourceState ×
      List SourcePacket :=
  if st.closed then (some (.error .sessionClosed), st, [])
  else if ¬ st.authed then (some (.error .authRequired), st, [])
  else if (rustTrim command).isEmpty then
    (some (.error .emptyCommand), st, [])
  else if command.contains 13 ∨ command.contains 10 then
    (some (.error .newlineInCommand), st, [])
  else if command.contains 0 then (some (.error .nulInCommand), st, [])
  else
    let (command_id, st1) := next_request_id st
    let (sentinel_id, st2) := next_request_id st1
    let writes := [⟨command_id, SERVERDATA_EXECCOMMAND, command⟩,
                   ⟨sentinel_id, SERVERDATA_EXECCOMMAND, []⟩]
    match collectLoop command_id sentinel_id [] incoming with
    | none => (none, st2, writes)
    | some (.error .deauthInvalidated) =>
      (some (.error .deauthInvalidated), { st2 with authed := false },
        writes)
    | some (.error e) => (some (.error e), st2, writes)
    | some (.ok lines) =>
      (some (.ok (.Response ⟨.Ok, lines, none⟩)), st2, writes)

/-- Failures of the two I/O steps inside `SourceClient::quit`. -/
inductive QuitError
  | flushFailed
  | shutdownFailed
deriving DecidableEq

/-- `SourceClient::quit` (transport.rs:550): a no-op on a closed session;
otherwise the `closed` flag is set before the flush and the write-side
shutdown run, whose success is modelled by the two boolean arguments. -/
def sourceQuit (st : SourceState) (flushOk shutdownOk : Bool) :
    Except QuitError Unit × SourceState :=
  if st.closed then (.ok (), st)
  else
    let st1 := { st with closed := true }
    if ¬ flushOk then (.error .flushFailed, st1)
    else if ¬ shutdownOk then (.error .shutdownFailed, st1)
    else (.ok (), st1)

end Hyrcon

namespace Hyrcon

/-- Errors surfaced by the Hyrcon backend state machine. -/
inductive HyrconError
  | newlineInPassword
  | readFailed
  | emptyAuthBlock
  | unexpectedAuthResponse (line : List Nat)
  | sessionClosed
  | emptyCommand
  | newlineInCommand
  | emptyBlock
  | unexpectedStatus (line : List Nat)
  | unexpectedQuitResponse
deriving DecidableEq

/-- Mutable state of `struct HyrconClient` relevant to the protocol logic:
the `closed` flag. -/
structure HyrconState where
  closed : Bool
deriving DecidableEq

/-- Rust `str::strip_prefix`: remove the prefix `p` when present. -/
def stripPrefixL (p s : List Nat) : Option (List Nat) :=
  if p.isPrefixOf s then some (s.drop p.length) else none

/-- `extract_error` (transport.rs:787): when the last line starts with
`ERROR `, remove it from the payload and return the rest of that line as
the error message. -/
def extract_error (lines : List (List Nat)) :
    List (List Nat) × Option (List Nat) :=
  match lines.getLast? with
  | some last =>
    match stripPrefixL (str "ERROR ") last with
    | some message => (lines.dropLast, some message)
    | none => (lines, none)
  | none => (lines, none)

/-- `parse_command_block` (transport.rs:759): the first line of the block
selects the status (`OK`, `ERR` or `BYE`); an empty block or an unknown
status line is a protocol violation. -/
def parse_command_block : List (List Nat) → Except HyrconError CommandOutcome
  | [] => .error .emptyBlock
  | status_line :: rest =>
    if status_line = str "OK" then
      .ok (.Response ⟨.Ok, (extract_error rest).1, (extract_error rest).2⟩)
    else if status_line = str "ERR" then
      .ok (.Response ⟨.Err, (extract_error rest).1, (extract_error rest).2⟩)
    else if status_line = str "BYE" then .ok .Bye
    else .error (.unexpectedStatus status_line)

/-- `HyrconClient::authenticate` (transport.rs:254): validate the password,
write the `AUTH <password>` line, read one block (supplied as `block`,
`none` when the read fails), and interpret its first line. Returns the
result, the post-call state, and the written lines. -/
def hyrconAuthenticate (st : HyrconState) (password : List Nat)
    (block : Option (List (List Nat))) :
    Except HyrconError AuthOutcome × HyrconState × List (List Nat) :=
  if password.contains 13 ∨ password.contains 10 then
    (.error .newlineInPassword, st, [])
  else
    let line := str "AUTH " ++ password
    match block with
    | none => (.error .readFailed, st, [line])
    | some b =>
      match b.head? with
      | some first =>
        if first = str "AUTH OK" then (.ok .Success, st, [line])
        else if first = str "AUTH FAIL" then (.ok .Failure, st, [line])
        else (.error (.unexpectedAuthResponse first), st, [line])
      | none => (.error .emptyAuthBlock, st, [line])

/-- `HyrconClient::send_command` (transport.rs:275): reject when the session
is closed, the trimmed command is empty, or the command contains CR/LF;
otherwise write the command line, read one block, parse it, and mark the
session closed on a `Bye` outcome. -/
def hyrconSendCommand (st : HyrconState) (command : List Nat)
    (block : Option (List (List Nat))) :
    Except HyrconError CommandOutcome × HyrconState × List (List Nat) :=
  if st.closed then (.error .sessionClosed, st, [])
  else if (rustTrim command).isEmpty then (.error .emptyCommand, st, [])
  else if command.contains 13 ∨ command.contains 10 then
    (.error .newlineInCommand, st, [])
  else
    match block with
    | none => (.error .readFailed, st, [command])
    | some b =>
      match parse_command_block b with
      | .error e => (.error e, st, [command])
      | .ok outcome =>
        if outcome = .Bye then
          (.ok outcome, { st with closed := true }, [command])
        else (.ok outcome, st, [command])

/-- `HyrconClient::quit` (transport.rs:305): a no-op when closed; otherwise
send `QUIT` as a command: a `Bye` outcome is success, a `Response` outcome
is itself an error (the session is nonetheless marked closed), and any
other error propagates. -/
def hyrconQuit (st : HyrconState) (block : Option (List (List Nat))) :
    Except HyrconError Unit × HyrconState × List (List Nat) :=
  if st.closed then (.ok (), st, [])
  else
    match hyrconSendCommand st (str "QUIT") block with
    | (.ok .Bye, st1, w) => (.ok (), st1, w)
    | (.ok (.Response _), st1, w) =>
      (.error .unexpectedQuitResponse, { st1 with closed := true }, w)
    | (.error e, st1, w) => (.error e, st1, w)

end Hyrcon

namespace Hyrcon

theorem dropWhile_self_dropWhile (p : Nat → Bool) (l : List Nat) :
    (l.dropWhile p).dropWhile p = l.dropWhile p := by
  induction l with
  | nil => rfl
  | cons a t ih =>
    rw [List.dropWhile_cons]
    split
    · exact ih
    · rw [List.dropWhile_cons]
      simp_all

theorem length_dropWhile_le' (p : Nat → Bool) (l : List Nat) :
    (l.dropWhile p).length ≤ l.length := by
  induction l with
  | nil => simp
  | cons a t ih =>
    rw [List.dropWhile_cons]
    split
    · simp; omega
    · simp

theorem dropWhile_fix_head {p : Nat → Bool} {a : Nat} {t : List Nat}
    (h : (a :: t).dropWhile p = a :: t) : p a = false := by
  rw [List.dropWhile_cons] at h
  by_cases hpa : p a
  · rw [if_pos hpa] at h
    have := length_dropWhile_le' p t
    rw [h] at this
    simp at this
  · simp_all

theorem mem_dropWhile_of_neg {p : Nat → Bool} {c : Nat} {l : List Nat}
    (hc : c ∈ l) (hp : p c = false) : c ∈ l.dropWhile p := by
  induction l with
  | nil => simp at hc
  | cons a t ih =>
    rw [List.dropWhile_cons]
    split
    · rcases List.mem_cons.mp hc with rfl | hct
      · simp_all
      · exact ih hct
    · exact hc

theorem mem_of_mem_dropWhile {p : Nat → Bool} {c : Nat} {l : List Nat}
    (hc : c ∈ l.dropWhile p) : c ∈ l := by
  induction l with
  | nil => simp_all [List.dropWhile]
  | cons a t ih =>
    rw [List.dropWhile_cons] at hc
    revert hc
    split
    · intro hc; exact List.mem_cons_of_mem a (ih hc)
    · exact id

theorem trimRev_fix (p : Nat → Bool) (y : List Nat) (hy : y.dropWhile p = y) :
    ((y.reverse.dropWhile p).reverse).dropWhile p =
      (y.reverse.dropWhile p).reverse := by
  cases y with
  | nil => simp
  | cons a t =>
    have hpa : p a = false := dropWhile_fix_head hy
    rw [List.reverse_cons, List.dropWhile_append]
    split
    · simp [List.dropWhile_cons, hpa]
    · rw [List.reverse_append]
      simp [List.dropWhile_cons, hpa]

theorem trimMatches_idem (p : Nat → Bool) (l : List Nat) :
    trimMatches p (trimMatches p l) = trimMatches p l := by
  unfold trimMatches
  rw [trimRev_fix p (l.dropWhile p) (dropWhile_self_dropWhile p l)]
  rw [List.reverse_reverse, dropWhile_self_dropWhile]

theorem trimMatches_decomp (p : Nat → Bool) (l : List Nat) :
    ∃ a b, l = a ++ trimMatches p l ++ b ∧ (∀ c ∈ a, p c) ∧ (∀ c ∈ b, p c) := by
  refine ⟨l.takeWhile p, ((l.dropWhile p).reverse.takeWhile p).reverse, ?_, ?_, ?_⟩
  · conv_lhs => rw [← List.takeWhile_append_dropWhile (p := p) (l := l)]
    rw [List.append_assoc]
    congr 1
    unfold trimMatches
    calc l.dropWhile p = (l.dropWhile p).reverse.reverse := by
          rw [List.reverse_reverse]
      _ = ((l.dropWhile p).reverse.takeWhile p ++
            (l.dropWhile p).reverse.dropWhile p).reverse := by
          rw [List.takeWhile_append_dropWhile]
      _ = ((l.dropWhile p).reverse.dropWhile p).reverse ++
            ((l.dropWhile p).reverse.takeWhile p).reverse := by
          rw [List.reverse_append]
  · intro c hc; exact List.mem_takeWhile_imp hc
  · intro c hc; rw [List.mem_reverse] at hc; exact List.mem_takeWhile_imp hc

theorem trimMatches_eq_nil_of_all {p : Nat → Bool} {l : List Nat}
    (h : ∀ c ∈ l, p c) : trimMatches p l = [] := by
  unfold trimMatches
  rw [List.dropWhile_eq_nil_iff.mpr h]
  simp

theorem all_of_trimMatches_eq_nil {p : Nat → Bool} {l : List Nat}
    (h : trimMatches p l = []) : ∀ c ∈ l, p c := by
  obtain ⟨a, b, hl, ha, hb⟩ := trimMatches_decomp p l
  rw [h] at hl
  intro c hc
  rw [hl] at hc
  simp only [List.mem_append, List.not_mem_nil, or_false] at hc
  rcases hc with h1 | h1
  · exact ha c h1
  · exact hb c h1

theorem mem_trimMatches_of_neg {p : Nat → Bool} {c : Nat} {l : List Nat}
    (hc : c ∈ l) (hp : p c = false) : c ∈ trimMatches p l := by
  unfold trimMatches
  rw [List.mem_reverse]
  apply mem_dropWhile_of_neg _ hp
  rw [List.mem_reverse]
  exact mem_dropWhile_of_neg hc hp

theorem mem_of_mem_trimMatches {p : Nat → Bool} {c : Nat} {l : List Nat}
    (hc : c ∈ trimMatches p l) : c ∈ l := by
  unfold trimMatches at hc
  rw [List.mem_reverse] at hc
  have := mem_of_mem_dropWhile hc
  rw [List.mem_reverse] at this
  exact mem_of_mem_dropWhile this

end Hyrcon

namespace Hyrcon

theorem isCRLF_of_or {c : Nat} (h : c = 13 ∨ c = 10) : isCRLF c = true := by
  rcases h with rfl | rfl <;> rfl

theorem or_of_isCRLF {c : Nat} (h : isCRLF c = true) : c = 13 ∨ c = 10 := by
  simp only [isCRLF, Bool.or_eq_true, decide_eq_true_eq] at h
  exact h

theorem isRustWhitespace_of_isCRLF {c : Nat} (h : isCRLF c = true) :
    isRustWhitespace c = true := by
  rcases or_of_isCRLF h with rfl | rfl <;> rfl

theorem rustTrim_trimCRLF_eq_nil {s : List Nat}
    (h : ∀ c ∈ s, isRustWhitespace c = true) :
    rustTrim (trimMatches isCRLF s) = [] := by
  apply trimMatches_eq_nil_of_all
  intro c hc
  exact h c (mem_of_mem_trimMatches hc)

/-- C8: a string consisting only of CR/LF characters, or whitespace-only
(empty after trimming), sanitizes to `none`; any string whose trim is
nonempty sanitizes to `some` of exactly the string with its leading and
trailing CR/LF characters removed, and sanitizing that remainder returns
it unchanged. -/
theorem sanitize_spec (s : List Nat) :
    ((∀ c ∈ s, c = 13 ∨ c = 10) → sanitize s = none) ∧
    (rustTrim s = [] → sanitize s = none) ∧
    (rustTrim s ≠ [] →
      sanitize s = some (trimMatches isCRLF s) ∧
      (∃ a b, s = a ++ trimMatches isCRLF s ++ b ∧
        (∀ c ∈ a, c = 13 ∨ c = 10) ∧ (∀ c ∈ b, c = 13 ∨ c = 10)) ∧
      sanitize (trimMatches isCRLF s) = some (trimMatches isCRLF s)) := by
  refine ⟨?_, ?_, ?_⟩
  · intro h
    have hws : ∀ c ∈ s, isRustWhitespace c = true := fun c hc =>
      isRustWhitespace_of_isCRLF (isCRLF_of_or (h c hc))
    simp only [sanitize, rustTrim_trimCRLF_eq_nil hws, List.isEmpty_nil,
      if_pos]
  · intro h
    have hws : ∀ c ∈ s, isRustWhitespace c = true :=
      all_of_trimMatches_eq_nil h
    simp only [sanitize, rustTrim_trimCRLF_eq_nil hws, List.isEmpty_nil,
      if_pos]
  · intro h
    have hex : ∃ c ∈ s, isRustWhitespace c = false := by
      by_contra hne
      push_neg at hne
      exact h (trimMatches_eq_nil_of_all fun c hc => by
        have := hne c hc
        revert this
        cases isRustWhitespace c <;> simp)
    obtain ⟨c, hcs, hcw⟩ := hex
    have hcrlf : isCRLF c = false := by
      by_contra hcc
      have : isCRLF c = true := by revert hcc; cases isCRLF c <;> simp
      rw [isRustWhitespace_of_isCRLF this] at hcw
      cases hcw
    have hct : c ∈ trimMatches isCRLF s := mem_trimMatches_of_neg hcs hcrlf
    have htrim : rustTrim (trimMatches isCRLF s) ≠ [] := by
      intro hnil
      have := all_of_trimMatches_eq_nil hnil c hct
      rw [this] at hcw
      cases hcw
    have hsome : sanitize s = some (trimMatches isCRLF s) := by
      simp only [sanitize]
      rw [if_neg (by simpa [List.isEmpty_iff] using htrim)]
    refine ⟨hsome, ?_, ?_⟩
    · obtain ⟨a, b, hl, ha, hb⟩ := trimMatches_decomp isCRLF s
      exact ⟨a, b, hl, fun x hx => or_of_isCRLF (ha x hx),
        fun x hx => or_of_isCRLF (hb x hx)⟩
    · simp only [sanitize, trimMatches_idem]
      rw [if_neg (by simpa [List.isEmpty_iff] using htrim)]

/-- Witness for C8 at concrete inputs: `"\r\nsay hi\n"` sanitizes to
`"say hi"`, which is a fixed point; `"\n\n"` and `"  \n"` sanitize to
`none`. -/
theorem sanitize_spec_witness :
    sanitize [13, 10, 115, 97, 121, 32, 104, 105, 10] = some [115, 97, 121, 32, 104, 105] ∧
    sanitize [115, 97, 121, 32, 104, 105] = some [115, 97, 121, 32, 104, 105] ∧
    sanitize [10, 10] = none ∧
    sanitize [32, 32, 10] = none := by
  have h1 := (sanitize_spec [13, 10, 115, 97, 121, 32, 104, 105, 10]).2.2
    (by decide)
  have h2 := (sanitize_spec [10, 10]).1 (by decide)
  have h3 := (sanitize_spec [32, 32, 10]).2.1 (by decide)
  refine ⟨?_, ?_, h2, h3⟩
  · rw [h1.1]
    decide
  · have := h1.2.2
    rw [show trimMatches isCRLF [13, 10, 115, 97, 121, 32, 104, 105, 10] =
      [115, 97, 121, 32, 104, 105] from by decide] at this
    exact this

end Hyrcon

namespace Hyrcon

theorem wrap32_eq_of_emod {m n : Int} (h : m % 2 ^ 32 = n % 2 ^ 32) :
    wrap32 m = wrap32 n := by
  unfold wrap32
  omega

theorem wrap32_succ_ne (n : Int) : wrap32 (n + 1) ≠ n := by
  intro h
  by_cases hr : -2 ^ 31 ≤ n ∧ n < 2 ^ 31
  · have h2 : wrap32 n = n := wrap32_eq_self hr.1 hr.2
    have h3 := wrap32_inj (h.trans h2.symm)
    omega
  · have h1 := wrap32_lb (n + 1)
    have h2 := wrap32_ub (n + 1)
    rw [h] at h1 h2
    exact hr ⟨h1, h2⟩

/-- C9: `SourceClient::quit` on a not-yet-closed session sets the `closed`
flag before attempting any I/O, so `is_closed()` reports true afterwards
even when the flush or the write-side shutdown fails. -/
theorem sourceQuit_sets_closed (st : SourceState) (flushOk shutdownOk : Bool)
    (h : st.closed = false) :
    ((sourceQuit st flushOk shutdownOk).2).closed = true := by
  unfold sourceQuit
  rw [if_neg (by simp [h])]
  split_ifs <;> rfl

/-- Witness for C9: a concrete open session is closed by `quit` even though
both the flush and the shutdown fail. -/
theorem sourceQuit_sets_closed_witness :
    ((sourceQuit ⟨true, 5, false⟩ false false).2).closed = true :=
  sourceQuit_sets_closed ⟨true, 5, false⟩ false false rfl

/-- C7: request ids advance by one per allocation with `i32` (unsigned
two's-complement) wraparound; any two allocations fewer than `2^32` apart
in one session yield distinct ids; and the ids of the packets written by
one `send_command` call (the command id and the sentinel id) are pairwise
distinct. -/
theorem request_ids_unique (st : SourceState) (n0 : Int) (i j : Nat)
    (command : List Nat) (incoming : List SourcePacket) :
    ((next_request_id st).1 = st.next_request_id ∧
      ((next_request_id st).2).next_request_id =
        wrap32 (st.next_request_id + 1)) ∧
    wrap32 (n0 + (i + 1 : Nat)) = wrap32 (wrap32 (n0 + i) + 1) ∧
    (i < 2 ^ 32 → j < 2 ^ 32 → i ≠ j →
      wrap32 (n0 + i) ≠ wrap32 (n0 + j)) ∧
    (next_request_id st).1 ≠ (next_request_id (next_request_id st).2).1 ∧
    ((sourceSendCommand st command incoming).2.2).Pairwise
      (fun a b => a.id ≠ b.id) := by
  refine ⟨⟨rfl, rfl⟩, ?_, ?_, ?_, ?_⟩
  · apply wrap32_eq_of_emod
    have h := wrap32_emod (n0 + i)
    push_cast
    omega
  · intro hi hj hne heq
    have h := wrap32_inj heq
    omega
  · exact (wrap32_succ_ne st.next_request_id).symm
  · unfold sourceSendCommand
    split_ifs <;> try simp
    unfold next_request_id
    split
    · simp [(wrap32_succ_ne st.next_request_id).symm]
    · simp [(wrap32_succ_ne st.next_request_id).symm]
    · simp [(wrap32_succ_ne st.next_request_id).symm]
    · simp [(wrap32_succ_ne st.next_request_id).symm]

/-- Witness for C7 at concrete inputs: allocations 0 and 4294967295 steps
from id 1 collide only outside the window; here 0 ≠ 5 gives distinct ids,
and a concrete `send_command` writes two packets with distinct ids. -/
theorem request_ids_unique_witness :
    wrap32 (1 + (0 : Nat)) ≠ wrap32 (1 + (5 : Nat)) ∧
    ((sourceSendCommand ⟨true, 1, false⟩ [104, 105]
      [⟨2, 0, []⟩]).2.2).Pairwise (fun a b => a.id ≠ b.id) := by
  refine ⟨?_, ?_⟩
  · exact (request_ids_unique ⟨true, 1, false⟩ 1 0 5 [] []).2.2.1
      (by norm_num) (by norm_num) (by norm_num)
  · exact (request_ids_unique ⟨true, 1, false⟩ 1 0 5 [104, 105]
      [⟨2, 0, []⟩]).2.2.2.2

end Hyrcon

namespace Hyrcon

/-- C6: a command containing an embedded CR or LF is rejected by both
backends with no packet or line written (zero bytes sent) and with the
session state returned unchanged. -/
theorem newline_command_rejected (command : List Nat)
    (hnl : command.contains 13 = true ∨ command.contains 10 = true)
    (sst : SourceState) (incoming : List SourcePacket)
    (hst : HyrconState) (block : Option (List (List Nat))) :
    (∃ e, (sourceSendCommand sst command incoming).1 = some (.error e)) ∧
    (sourceSendCommand sst command incoming).2.1 = sst ∧
    (sourceSendCommand sst command incoming).2.2 = [] ∧
    (∃ e, (hyrconSendCommand hst command block).1 = .error e) ∧
    (hyrconSendCommand hst command block).2.1 = hst ∧
    (hyrconSendCommand hst command block).2.2 = [] := by
  unfold sourceSendCommand hyrconSendCommand
  split_ifs with h1 h2 h3 h4 h5 h6 h7 h8 <;> simp_all

/-- Witness for C6: the command `"say\nhi"` is rejected by both backends on
concrete open sessions with nothing written and the state unchanged. -/
theorem newline_command_rejected_witness :
    (∃ e, (sourceSendCommand ⟨true, 1, false⟩ [115, 97, 121, 10, 104, 105]
      []).1 = some (.error e)) ∧
    (sourceSendCommand ⟨true, 1, false⟩ [115, 97, 121, 10, 104, 105]
      []).2.2 = [] ∧
    (∃ e, (hyrconSendCommand ⟨false⟩ [115, 97, 121, 10, 104, 105]
      none).1 = .error e) ∧
    (hyrconSendCommand ⟨false⟩ [115, 97, 121, 10, 104, 105] none).2.2 = [] := by
  have h := newline_command_rejected [115, 97, 121, 10, 104, 105]
    (Or.inr (by decide)) ⟨true, 1, false⟩ [] ⟨false⟩ none
  exact ⟨h.1, h.2.2.1, h.2.2.2.1, h.2.2.2.2.2⟩

/-- C5 counterexample: `authenticate` performs no `closed` check, so on a
session whose `closed` flag is true it still succeeds when the server
replies with a matching AUTH_RESPONSE — refuting the claim that no
`authenticate` may succeed once `closed` is true. -/
theorem closed_authenticate_succeeds :
    (⟨false, 1, true⟩ : SourceState).closed = true ∧
    (sourceAuthenticate ⟨false, 1, true⟩ [112] [⟨1, 2, []⟩]).1 =
      some (.ok .Success) := by
  constructor
  · rfl
  · rfl

/-- C5 (amended): once `closed` is true, `send_command` on either backend
fails with the session-closed error without writing anything, and `quit`
on either backend succeeds as a no-op, performing no I/O and leaving the
state unchanged; `authenticate` however is not guarded by the `closed`
flag. -/
theorem closed_session_spec (sst : SourceState) (hst : HyrconState)
    (command : List Nat) (incoming : List SourcePacket)
    (block : Option (List (List Nat))) (flushOk shutdownOk : Bool)
    (hs : sst.closed = true) (hh : hst.closed = true) :
    sourceSendCommand sst command incoming =
      (some (.error .sessionClosed), sst, []) ∧
    hyrconSendCommand hst command block =
      (.error .sessionClosed, hst, []) ∧
    sourceQuit sst flushOk shutdownOk = (.ok (), sst) ∧
    hyrconQuit hst block = (.ok (), hst, []) := by
  unfold sourceSendCommand hyrconSendCommand sourceQuit hyrconQuit
  simp [hs, hh]

/-- Witness for C5 (amended) on concrete closed sessions. -/
theorem closed_session_spec_witness :
    sourceSendCommand ⟨true, 7, true⟩ [104, 105] [] =
      (some (.error .sessionClosed), ⟨true, 7, true⟩, []) ∧
    hyrconSendCommand ⟨true⟩ [104, 105] none =
      (.error .sessionClosed, ⟨true⟩, []) ∧
    sourceQuit ⟨true, 7, true⟩ false false = (.ok (), ⟨true, 7, true⟩) ∧
    hyrconQuit ⟨true⟩ none = (.ok (), ⟨true⟩, []) :=
  closed_session_spec ⟨true, 7, true⟩ ⟨true⟩ [104, 105] [] none false false
    rfl rfl

end Hyrcon

namespace Hyrcon

theorem parse_command_block_errors (b : List (List Nat)) (e : HyrconError)
    (h : parse_command_block b = .error e) :
    e = .emptyBlock ∨ ∃ line, e = .unexpectedStatus line := by
  match b with
  | [] =>
    unfold parse_command_block at h
    cases h
    exact Or.inl rfl
  | s :: rest =>
    rw [parse_command_block] at h
    split_ifs at h <;> cases h
    exact Or.inr ⟨s, rfl⟩

theorem hyrconSendCommand_no_sessionClosed {st : HyrconState}
    (h : st.closed = false) (command : List Nat)
    (block : Option (List (List Nat))) :
    (hyrconSendCommand st command block).1 ≠ .error .sessionClosed := by
  unfold hyrconSendCommand
  rw [if_neg (by simp [h])]
  split_ifs
  · simp
  · simp
  · match block with
    | none => simp
    | some b =>
      simp only []
      split
      · rename_i e heq
        rcases parse_command_block_errors b e heq with rfl | ⟨line, rfl⟩ <;>
          simp
      · split_ifs <;> simp

/-- C10: when a Hyrcon `send_command` receives a block whose status line is
none of OK, ERR or BYE (or an empty block), the call fails as a protocol
violation but the `closed` flag stays false, and a subsequent
`send_command` on the same session is never rejected as closed. -/
theorem unknown_status_leaves_open (st : HyrconState) (command : List Nat)
    (b : List (List Nat))
    (hclosed : st.closed = false)
    (htrim : ¬ (rustTrim command).isEmpty = true)
    (hnl : ¬ (command.contains 13 = true ∨ command.contains 10 = true))
    (hbad : b = [] ∨ ∃ s rest, b = s :: rest ∧ s ≠ str "OK" ∧
      s ≠ str "ERR" ∧ s ≠ str "BYE") :
    (∃ e, (hyrconSendCommand st command (some b)).1 = .error e ∧
      (e = .emptyBlock ∨ ∃ line, e = .unexpectedStatus line)) ∧
    ((hyrconSendCommand st command (some b)).2.1).closed = false ∧
    (∀ c blk,
      (hyrconSendCommand ((hyrconSendCommand st command (some b)).2.1)
        c blk).1 ≠ .error .sessionClosed) := by
  rcases hbad with rfl | ⟨s, rest, rfl, h1, h2, h3⟩
  · have hres : hyrconSendCommand st command (some []) =
        (.error .emptyBlock, st, [command]) := by
      unfold hyrconSendCommand
      rw [if_neg (by simp [hclosed]), if_neg htrim, if_neg hnl]
      rfl
    rw [hres]
    exact ⟨⟨.emptyBlock, rfl, Or.inl rfl⟩, hclosed,
      fun c blk => hyrconSendCommand_no_sessionClosed hclosed c blk⟩
  · have hp : parse_command_block (s :: rest) =
        .error (.unexpectedStatus s) := by
      rw [parse_command_block, if_neg h1, if_neg h2, if_neg h3]
    have hres : hyrconSendCommand st command (some (s :: rest)) =
        (.error (.unexpectedStatus s), st, [command]) := by
      unfold hyrconSendCommand
      rw [if_neg (by simp [hclosed]), if_neg htrim, if_neg hnl]
      simp only [hp]
    rw [hres]
    exact ⟨⟨.unexpectedStatus s, rfl, Or.inr ⟨s, rfl⟩⟩, hclosed,
      fun c blk => hyrconSendCommand_no_sessionClosed hclosed c blk⟩

/-- Witness for C10: a concrete block with unknown status line `WAT` makes
`send_command` fail while the session stays open. -/
theorem unknown_status_leaves_open_witness :
    (∃ e, (hyrconSendCommand ⟨false⟩ [104, 105]
      (some [[87, 65, 84]])).1 = .error e ∧
      (e = .emptyBlock ∨ ∃ line, e = .unexpectedStatus line)) ∧
    ((hyrconSendCommand ⟨false⟩ [104, 105]
      (some [[87, 65, 84]])).2.1).closed = false := by
  have h := unknown_status_leaves_open ⟨false⟩ [104, 105] [[87, 65, 84]]
    rfl (by decide) (by decide)
    (Or.inr ⟨[87, 65, 84], [], rfl, by decide, by decide, by decide⟩)
  exact ⟨h.1, h.2.1⟩

/-- C1 counterexample: an AUTH_RESPONSE packet whose id (99) is neither the
request id (1) nor -1 terminates the authenticate read loop with outcome
Failure instead of being skipped: had the loop continued, it would still be
waiting for another packet (`none`), as it does on the empty stream. -/
theorem authLoop_unexpected_id_breaks :
    authLoop 1 false [⟨99, 2, []⟩] = some (.Failure, false) ∧
    authLoop 1 false [] = none := ⟨rfl, rfl⟩

/-- C1 (amended): the Source authenticate read loop skips RESPONSE_VALUE
packets and packets of any kind other than AUTH_RESPONSE, and terminates on
every AUTH_RESPONSE packet: id equal to the request id yields Success
(authed set), id equal to -1 yields Failure (authed cleared), and any other
id yields the initial Failure outcome with the authed flag untouched. -/
theorem authLoop_spec (auth_id : Int) (authed : Bool)
    (packet : SourcePacket) (rest : List SourcePacket) :
    (packet.kind = SERVERDATA_RESPONSE_VALUE →
      authLoop auth_id authed (packet :: rest) =
        authLoop auth_id authed rest) ∧
    (packet.kind ≠ SERVERDATA_RESPONSE_VALUE →
      packet.kind ≠ SERVERDATA_AUTH_RESPONSE →
      authLoop auth_id authed (packet :: rest) =
        authLoop auth_id authed rest) ∧
    (packet.kind = SERVERDATA_AUTH_RESPONSE →
      (packet.id = auth_id →
        authLoop auth_id authed (packet :: rest) = some (.Success, true)) ∧
      (packet.id ≠ auth_id → packet.id = -1 →
        authLoop auth_id authed (packet :: rest) = some (.Failure, false)) ∧
      (packet.id ≠ auth_id → packet.id ≠ -1 →
        authLoop auth_id authed (packet :: rest) =
          some (.Failure, authed))) := by
  refine ⟨?_, ?_, ?_⟩
  · intro h
    rw [authLoop, if_pos h]
  · intro h1 h2
    rw [authLoop, if_neg h1, if_neg h2]
  · intro h
    have h0 : packet.kind ≠ SERVERDATA_RESPONSE_VALUE := by
      rw [h]; decide
    refine ⟨?_, ?_, ?_⟩
    · intro hid
      rw [authLoop, if_neg h0, if_pos h, if_pos hid]
    · intro hid hneg
      rw [authLoop, if_neg h0, if_pos h, if_neg hid, if_pos hneg]
    · intro hid hneg
      rw [authLoop, if_neg h0, if_pos h, if_neg hid, if_neg hneg]

/-- Witness for C1 (amended) at concrete packets: a RESPONSE_VALUE packet
is skipped, a matching AUTH_RESPONSE yields Success, id -1 yields Failure,
and an unexpected id yields the initial Failure with the flag untouched. -/
theorem authLoop_spec_witness :
    authLoop 1 false [⟨7, 0, []⟩] = authLoop 1 false [] ∧
    authLoop 1 false [⟨1, 2, []⟩] = some (.Success, true) ∧
    authLoop 1 false [⟨-1, 2, []⟩] = some (.Failure, false) ∧
    authLoop 1 true [⟨99, 2, []⟩] = some (.Failure, true) := by
  refine ⟨?_, ?_, ?_, ?_⟩
  · exact (authLoop_spec 1 false ⟨7, 0, []⟩ []).1 rfl
  · exact ((authLoop_spec 1 false ⟨1, 2, []⟩ []).2.2 rfl).1 rfl
  · exact ((authLoop_spec 1 false ⟨-1, 2, []⟩ []).2.2 rfl).2.1
      (by decide) rfl
  · exact ((authLoop_spec 1 true ⟨99, 2, []⟩ []).2.2 rfl).2.2
      (by decide) (by decide)

end Hyrcon

namespace Hyrcon

/-- C2: in the Source `send_command` collection loop a packet with the
sentinel id ends the loop successfully when it is a RESPONSE_VALUE with an
empty payload — and then the call returns a `Response` outcome with status
Ok, the accumulated lines in arrival order and no error message — while a
sentinel-id packet of a different kind, or with a non-empty payload, makes
the call fail as a protocol violation (the deauthentication check for an
AUTH_RESPONSE with id -1 runs first, hence its exclusion); a
RESPONSE_VALUE packet with the command id appends its split payload to the
accumulator. -/
theorem sentinel_spec (command_id sentinel_id : Int)
    (acc : List (List Nat)) (packet : SourcePacket)
    (rest : List SourcePacket) :
    (packet.id = sentinel_id → packet.kind = SERVERDATA_RESPONSE_VALUE →
      packet.payload = [] →
      collectLoop command_id sentinel_id acc (packet :: rest) =
        some (.ok acc)) ∧
    (packet.id = sentinel_id → packet.kind ≠ SERVERDATA_RESPONSE_VALUE →
      ¬ (packet.kind = SERVERDATA_AUTH_RESPONSE ∧ packet.id = -1) →
      collectLoop command_id sentinel_id acc (packet :: rest) =
        some (.error (.sentinelKind packet.kind))) ∧
    (packet.id = sentinel_id → packet.kind = SERVERDATA_RESPONSE_VALUE →
      packet.payload ≠ [] →
      collectLoop command_id sentinel_id acc (packet :: rest) =
        some (.error .sentinelPayload)) ∧
    (packet.id ≠ sentinel_id → packet.kind = SERVERDATA_RESPONSE_VALUE →
      packet.id = command_id → packet.payload ≠ [] →
      collectLoop command_id sentinel_id acc (packet :: rest) =
        collectLoop command_id sentinel_id
          (acc ++ split_lines packet.payload) rest) ∧
    (∀ st command incoming lines, st.closed = false → st.authed = true →
      ¬ (rustTrim command).isEmpty = true →
      ¬ (command.contains 13 = true ∨ command.contains 10 = true) →
      ¬ command.contains 0 = true →
      collectLoop st.next_request_id (wrap32 (st.next_request_id + 1)) []
        incoming = some (.ok lines) →
      (sourceSendCommand st command incoming).1 =
        some (.ok (.Response ⟨.Ok, lines, none⟩))) := by
  have hk0 : (SERVERDATA_RESPONSE_VALUE : Int) ≠ SERVERDATA_AUTH_RESPONSE :=
    by decide
  refine ⟨?_, ?_, ?_, ?_, ?_⟩
  · intro hid hkind hpay
    rw [collectLoop, if_neg (by rw [hkind]; exact fun hc => hk0 hc.1),
      if_pos hid, if_neg (by simp [hkind]), if_neg (by simp [hpay])]
  · intro hid hkind hex
    rw [collectLoop, if_neg hex, if_pos hid, if_pos hkind]
  · intro hid hkind hpay
    rw [collectLoop, if_neg (by rw [hkind]; exact fun hc => hk0 hc.1),
      if_pos hid, if_neg (by simp [hkind]),
      if_pos (by simp [List.isEmpty_iff, hpay])]
  · intro hid hkind hcmd hpay
    rw [collectLoop, if_neg (by rw [hkind]; exact fun hc => hk0 hc.1),
      if_neg hid, if_pos ⟨hkind, hcmd⟩,
      if_pos (by simp [List.isEmpty_iff, hpay])]
  · intro st command incoming lines hclosed hauthed htrim hnl hnul hloop
    unfold sourceSendCommand
    rw [if_neg (by simp [hclosed]), if_neg (by simp [hauthed]),
      if_neg htrim, if_neg hnl, if_neg hnul]
    simp only [next_request_id, hloop]

/-- Witness for C2: a two-packet exchange — one RESPONSE_VALUE carrying
`"ok\n"` for the command id, then the empty sentinel reply — produces
`Response(Ok, ["ok"], none)`; a sentinel reply of kind 3 is a protocol
violation, as is a sentinel reply with payload. -/
theorem sentinel_spec_witness :
    (sourceSendCommand ⟨true, 1, false⟩ [115, 97, 121]
      [⟨1, 0, [111, 107, 10]⟩, ⟨2, 0, []⟩]).1 =
      some (.ok (.Response ⟨.Ok, [[111, 107]], none⟩)) ∧
    collectLoop 1 2 [] [⟨2, 3, []⟩] =
      some (.error (.sentinelKind 3)) ∧
    collectLoop 1 2 [] [⟨2, 0, [120]⟩] =
      some (.error .sentinelPayload) ∧
    collectLoop 1 2 [[97]] [⟨2, 0, []⟩] = some (.ok [[97]]) := by
  refine ⟨?_, ?_, ?_, ?_⟩
  · apply (sentinel_spec 1 2 [] ⟨1, 0, [111, 107, 10]⟩ []).2.2.2.2
      ⟨true, 1, false⟩ [115, 97, 121] _ [[111, 107]] rfl rfl
      (by decide) (by decide) (by decide)
    have h1 := (sentinel_spec 1 2 [] ⟨1, 0, [111, 107, 10]⟩
      [⟨2, 0, []⟩]).2.2.2.1 (by decide) rfl rfl (by decide)
    have h2 := (sentinel_spec 1 2 [[111, 107]] ⟨2, 0, []⟩ []).1 rfl rfl rfl
    rw [show wrap32 (1 + 1) = 2 from by decide]
    rw [show (⟨true, 1, false⟩ : SourceState).next_request_id = 1 from rfl]
    rw [h1]
    rw [show ([] : List (List Nat)) ++
      split_lines [111, 107, 10] = [[111, 107]] from by decide]
    exact h2
  · exact (sentinel_spec 1 2 [] ⟨2, 3, []⟩ []).2.1 rfl (by decide)
      (by decide)
  · exact (sentinel_spec 1 2 [] ⟨2, 0, [120]⟩ []).2.2.1 rfl rfl (by decide)
  · exact (sentinel_spec 1 2 [[97]] ⟨2, 0, []⟩ []).1 rfl rfl rfl

end Hyrcon

namespace Hyrcon

theorem toLeBytes_spec (n : Int) :
    ∃ a b c d, toLeBytes n = [a, b, c, d] ∧ fromLeBytes a b c d = wrap32 n := by
  refine ⟨_, _, _, _, rfl, ?_⟩
  have h0 : 0 ≤ n % 2 ^ 32 := Int.emod_nonneg n (by norm_num)
  have h1 : n % 2 ^ 32 < 2 ^ 32 := Int.emod_lt_of_pos n (by norm_num)
  simp only [fromLeBytes, wrap32]
  set u := (n % 2 ^ 32).toNat with hu
  have hun : (u : Int) = n % 2 ^ 32 := by omega
  have hub : u < 2 ^ 32 := by omega
  split <;> omega

theorem takeWhile_nonzero_of_no_nul {l : List Nat} (h : 0 ∉ l) :
    l.takeWhile (· ≠ 0) = l := by
  induction l with
  | nil => rfl
  | cons a t ih =>
    rw [List.takeWhile_cons]
    rw [if_pos (by simp; intro hc; exact h (hc ▸ List.mem_cons_self a t))]
    rw [ih (fun hc => h (List.mem_cons_of_mem a hc))]

theorem utf8Encode_replicate_ascii (n c : Nat) (h : c < 128) :
    utf8Encode (List.replicate n c) = List.replicate n c := by
  induction n with
  | zero => rfl
  | succ m ih =>
    rw [List.replicate_succ, utf8Encode, List.flatMap_cons,
      show (List.replicate m c).flatMap utf8EncodeChar =
        utf8Encode (List.replicate m c) from rfl, ih,
      utf8EncodeChar, if_pos h]
    rfl

theorem wrap32_idem (n : Int) : wrap32 (wrap32 n) = wrap32 n :=
  wrap32_eq_self (wrap32_lb n) (wrap32_ub n)

theorem parseBody_roundtrip (id kind : Int) (payload : List Nat)
    (hid1 : -2 ^ 31 ≤ id) (hid2 : id < 2 ^ 31)
    (hk1 : -2 ^ 31 ≤ kind) (hk2 : kind < 2 ^ 31)
    (hsv : ∀ c ∈ payload, ScalarValue c) (hnul : 0 ∉ payload)
    {i0 i1 i2 i3 k0 k1 k2 k3 : Nat}
    (hI : toLeBytes id = [i0, i1, i2, i3])
    (hI2 : fromLeBytes i0 i1 i2 i3 = wrap32 id)
    (hK : toLeBytes kind = [k0, k1, k2, k3])
    (hK2 : fromLeBytes k0 k1 k2 k3 = wrap32 kind) :
    parseBody (i0 :: i1 :: i2 :: i3 :: k0 :: k1 :: k2 :: k3 ::
      (utf8Encode payload ++ [0, 0])) = .ok ⟨id, kind, payload⟩ := by
  rw [parseBody]
  rw [if_neg (by simp)]
  have hdrop : (utf8Encode payload ++ [0, 0]).drop
      ((utf8Encode payload ++ [0, 0]).length - 2) = [0, 0] := by
    rw [List.length_append]
    simp only [List.length_cons, List.length_nil]
    rw [show (utf8Encode payload).length + (0 + 1 + 1) - 2 =
      (utf8Encode payload).length from by omega]
    exact List.drop_left _ _
  rw [if_neg (by rw [hdrop]; simp)]
  have htake : (utf8Encode payload ++ [0, 0]).take
      ((utf8Encode payload ++ [0, 0]).length - 2) = utf8Encode payload := by
    rw [List.length_append]
    simp only [List.length_cons, List.length_nil]
    rw [show (utf8Encode payload).length + (0 + 1 + 1) - 2 =
      (utf8Encode payload).length from by omega]
    exact List.take_left _ _
  rw [htake, utf8Decode_utf8Encode payload hsv]
  rw [hI2, hK2, wrap32_eq_self hid1 hid2, wrap32_eq_self hk1 hk2]
  simp only [takeWhile_nonzero_of_no_nul hnul]

/-- C3 (amended): for every `i32` id `I` and type `T` and every payload `P`
of scalar values with no NUL whose UTF-8 encoding is at most `2^31 - 11`
bytes (so the frame length fits in `i32`; the unbounded claim is false,
see the counterexample), encoding the packet and decoding the resulting
bytes yields exactly `(I, T, P)` and consumes the whole frame. -/
theorem write_read_roundtrip (id kind : Int) (payload : List Nat)
    (hid1 : -2 ^ 31 ≤ id) (hid2 : id < 2 ^ 31)
    (hk1 : -2 ^ 31 ≤ kind) (hk2 : kind < 2 ^ 31)
    (hsv : ∀ c ∈ payload, ScalarValue c) (hnul : 0 ∉ payload)
    (hlen : (utf8Encode payload).length ≤ 2 ^ 31 - 11) :
    ∃ frame, write_packet id kind payload = .ok frame ∧
      read_packet frame = .ok (⟨id, kind, payload⟩, []) := by
  obtain ⟨a0, a1, a2, a3, hA, hA2⟩ :=
    toLeBytes_spec (wrap32 (4 + 4 + ((utf8Encode payload).length : Int) + 2))
  obtain ⟨i0, i1, i2, i3, hI, hI2⟩ := toLeBytes_spec id
  obtain ⟨k0, k1, k2, k3, hK, hK2⟩ := toLeBytes_spec kind
  have hL : wrap32 (4 + 4 + ((utf8Encode payload).length : Int) + 2) =
      10 + ((utf8Encode payload).length : Int) := by
    rw [show (4 + 4 + ((utf8Encode payload).length : Int) + 2) =
      10 + ((utf8Encode payload).length : Int) from by push_cast; ring]
    exact wrap32_eq_self (by push_cast; omega) (by push_cast; omega)
  refine ⟨toLeBytes (wrap32 (4 + 4 + ((utf8Encode payload).length : Int) + 2)) ++
    toLeBytes id ++ toLeBytes kind ++ utf8Encode payload ++ [0, 0], ?_, ?_⟩
  · unfold write_packet
    rw [if_neg hnul]
  · rw [hA, hI, hK]
    simp only [List.cons_append, List.nil_append, List.append_assoc]
    rw [read_packet]
    rw [hA2, wrap32_idem, hL]
    rw [if_neg (by push_cast; omega)]
    have hrest : (i0 :: i1 :: i2 :: i3 :: k0 :: k1 :: k2 :: k3 ::
        (utf8Encode payload ++ [0, 0])).length =
        (utf8Encode payload).length + 10 := by
      simp [List.length_append]
    have htoNat : (10 + ((utf8Encode payload).length : Int)).toNat =
        (i0 :: i1 :: i2 :: i3 :: k0 :: k1 :: k2 :: k3 ::
          (utf8Encode payload ++ [0, 0])).length := by
      rw [hrest]; omega
    rw [if_neg (by rw [htoNat]; omega)]
    rw [htoNat, List.take_length, List.drop_length]
    rw [parseBody_roundtrip id kind payload hid1 hid2 hk1 hk2 hsv hnul
      hI hI2 hK hK2]

/-- C3 counterexample: for a payload of 2^31 - 10 ASCII bytes (no NUL), the
frame length computation `(4 + 4 + len + 2) as i32` wraps to -2^31, so
decoding the encoded frame fails with an invalid-length error instead of
returning the packet: the claim is false for unbounded payload sizes. -/
theorem roundtrip_fails_at_huge_payload :
    ∃ frame, write_packet 1 0 (List.replicate 2147483638 97) = .ok frame ∧
      read_packet frame = .error (.badLength (-2147483648)) := by
  have hnul : (0 : Nat) ∉ List.replicate 2147483638 97 := by
    intro hmem
    exact absurd (List.eq_of_mem_replicate hmem) (by norm_num)
  have hpb : utf8Encode (List.replicate 2147483638 97) =
      List.replicate 2147483638 97 :=
    utf8Encode_replicate_ascii _ 97 (by norm_num)
  have hw : write_packet 1 0 (List.replicate 2147483638 97) =
      .ok ((0 : Nat) :: 0 :: 0 :: 128 ::
        (toLeBytes 1 ++ (toLeBytes 0 ++
          (List.replicate 2147483638 97 ++ [0, 0])))) := by
    unfold write_packet
    rw [if_neg hnul]
    simp only [hpb, List.length_replicate]
    rw [show wrap32 (4 + 4 + ((2147483638 : Nat) : Int) + 2) =
      -2147483648 from by decide]
    rw [show toLeBytes (-2147483648) = [0, 0, 0, 128] from by decide]
    simp only [List.cons_append, List.nil_append, List.append_assoc]
  refine ⟨_, hw, ?_⟩
  rw [read_packet]
  rw [show fromLeBytes 0 0 0 128 = -2147483648 from by decide]
  rw [if_pos (by decide)]

/-- Witness for C3 (amended) at an empty payload and at a 4096-byte
payload. -/
theorem write_read_roundtrip_witness :
    (∃ frame, write_packet 3 2 [] = .ok frame ∧
      read_packet frame = .ok (⟨3, 2, []⟩, [])) ∧
    (∃ frame, write_packet 5 0 (List.replicate 4096 97) = .ok frame ∧
      read_packet frame = .ok (⟨5, 0, List.replicate 4096 97⟩, [])) := by
  constructor
  · exact write_read_roundtrip 3 2 [] (by norm_num) (by norm_num)
      (by norm_num) (by norm_num) (by simp) (by simp) (by decide)
  · refine write_read_roundtrip 5 0 (List.replicate 4096 97) (by norm_num)
      (by norm_num) (by norm_num) (by norm_num) ?_ ?_ ?_
    · intro c hc
      rw [List.mem_replicate] at hc
      rw [hc.2]
      decide
    · intro hmem
      exact absurd (List.eq_of_mem_replicate hmem) (by norm_num)
    · rw [utf8Encode_replicate_ascii _ 97 (by norm_num),
        List.length_replicate]
      norm_num

/-- C4: Source packet decoding is total — on every input byte sequence it
returns either an error or a packet, never anything else — and it rejects
with an error whenever the declared length is below 10, or the final two
bytes of the body are not both zero, or the payload bytes are not valid
UTF-8; finally, every body-level rejection propagates out of
`read_packet`. -/
theorem read_packet_total_rejects (input : List Nat) :
    ((∃ e, read_packet input = .error e) ∨
      (∃ out, read_packet input = .ok out)) ∧
    (∀ b0 b1 b2 b3 rest, input = b0 :: b1 :: b2 :: b3 :: rest →
      fromLeBytes b0 b1 b2 b3 < 10 →
      read_packet input = .error (.badLength (fromLeBytes b0 b1 b2 b3))) ∧
    (∀ i0 i1 i2 i3 k0 k1 k2 k3 bodyRest,
      ¬ (bodyRest : List Nat).length + 8 < 10 →
      bodyRest.drop (bodyRest.length - 2) ≠ [0, 0] →
      parseBody (i0 :: i1 :: i2 :: i3 :: k0 :: k1 :: k2 :: k3 :: bodyRest) =
        .error .badTerminator) ∧
    (∀ i0 i1 i2 i3 k0 k1 k2 k3 bodyRest,
      ¬ (bodyRest : List Nat).length + 8 < 10 →
      bodyRest.drop (bodyRest.length - 2) = [0, 0] →
      utf8Decode (bodyRest.take (bodyRest.length - 2)) = none →
      parseBody (i0 :: i1 :: i2 :: i3 :: k0 :: k1 :: k2 :: k3 :: bodyRest) =
        .error .invalidUtf8) ∧
    (∀ b0 b1 b2 b3 rest e, input = b0 :: b1 :: b2 :: b3 :: rest →
      ¬ fromLeBytes b0 b1 b2 b3 < 10 →
      ¬ rest.length < (fromLeBytes b0 b1 b2 b3).toNat →
      parseBody (rest.take (fromLeBytes b0 b1 b2 b3).toNat) = .error e →
      read_packet input = .error e) := by
  refine ⟨?_, ?_, ?_, ?_, ?_⟩
  · rcases hre : read_packet input with e | out
    · exact Or.inl ⟨e, rfl⟩
    · exact Or.inr ⟨out, rfl⟩
  · intro b0 b1 b2 b3 rest hin hlt
    subst hin
    rw [read_packet, if_pos hlt]
  · intro i0 i1 i2 i3 k0 k1 k2 k3 bodyRest h1 h2
    rw [parseBody, if_neg h1, if_pos h2]
  · intro i0 i1 i2 i3 k0 k1 k2 k3 bodyRest h1 h2 h3
    rw [parseBody, if_neg h1, if_neg (fun hc => hc h2)]
    simp only [h3]
  · intro b0 b1 b2 b3 rest e hin h2 h3 h4
    subst hin
    rw [read_packet, if_neg h2, if_neg h3]
    simp only [h4]

/-- Witness for C4 at concrete inputs: a declared length of 3 is rejected;
a body ending in bytes other than two zeros is rejected at the body level
and through `read_packet`; a body whose payload byte 0xFF is not UTF-8 is
rejected. -/
theorem read_packet_total_rejects_witness :
    read_packet [3, 0, 0, 0] = .error (.badLength 3) ∧
    parseBody [1, 0, 0, 0, 0, 0, 0, 0, 65, 1] = .error .badTerminator ∧
    parseBody [1, 0, 0, 0, 0, 0, 0, 0, 255, 0, 0] = .error .invalidUtf8 ∧
    read_packet [10, 0, 0, 0, 1, 0, 0, 0, 0, 0, 0, 0, 1, 1] =
      .error .badTerminator := by
  refine ⟨?_, ?_, ?_, ?_⟩
  · have h := (read_packet_total_rejects [3, 0, 0, 0]).2.1 3 0 0 0 [] rfl
      (by decide)
    rw [h]
    rw [show fromLeBytes 3 0 0 0 = 3 from by decide]
  · exact (read_packet_total_rejects []).2.2.1 1 0 0 0 0 0 0 0 [65, 1]
      (by decide) (by decide)
  · refine (read_packet_total_rejects []).2.2.2.1 1 0 0 0 0 0 0 0 [255, 0, 0]
      (by decide) (by decide) ?_
    rw [show ([255, 0, 0] : List Nat).take (([255, 0, 0] : List Nat).length - 2) =
      [255] from by decide]
    exact utf8Decode_cons_none (by decide)
  · apply (read_packet_total_rejects
      [10, 0, 0, 0, 1, 0, 0, 0, 0, 0, 0, 0, 1, 1]).2.2.2.2 10 0 0 0
      [1, 0, 0, 0, 0, 0, 0, 0, 1, 1] .badTerminator rfl (by decide)
      (by decide)
    have h := (read_packet_total_rejects []).2.2.1 1 0 0 0 0 0 0 0 [1, 1]
      (by decide) (by decide)
    rw [show ([1, 0, 0, 0, 0, 0, 0, 0, 1, 1] : List Nat).take
      (fromLeBytes 10 0 0 0).toNat = [1, 0, 0, 0, 0, 0, 0, 0, 1, 1] from
      by decide]
    exact h

end Hyrcon
